import Mathlib

/-!
Verification of the directory-sync subsystem in `src/udrive_sync.py`
(device classification, rsync flag-profile construction, size/count
auditing, round-robin parallel split, and the sync orchestrator).

Shallow embedding conventions:
- Python strings are Lean `String`s; character-level operations
  (`rstrip`, `split`, `startswith`, `in`) are modelled on `List Char`.
- External-world queries (`df`, `/sys/class/block` listing,
  rotational-flag file reads, size/count audits, rsync exit codes)
  are supplied by explicit environment records.
- Exit codes of spawned processes are `Int` (Python `returncode` can
  be negative on signals); sizes and file counts are `Nat`.
-/

namespace UdriveSync

/-! ### String helpers (Python character operations) -/

/-- Python `s.rstrip("/")`: drop all trailing `'/'` characters. -/
def rstripSlash (s : String) : String :=
  String.mk ((s.toList.reverse.dropWhile (fun c => c = '/')).reverse)

/-- Python `s.rstrip("0123456789")`: drop all trailing ASCII digits. -/
def rstripDigits (s : String) : String :=
  String.mk ((s.toList.reverse.dropWhile (fun c => c.isDigit)).reverse)

/-- Python `s.split(c)` for a one-character separator: split on every
occurrence of `c`, keeping empty groups. -/
def splitChar (c : Char) : List Char → List (List Char)
  | [] => [[]]
  | x :: xs =>
    let r := splitChar c xs
    if x = c then [] :: r
    else
      match r with
      | [] => [[x]]
      | g :: gs => (x :: g) :: gs

/-- Python `os.path.basename` (POSIX): everything after the last `'/'`. -/
def basename (s : String) : String :=
  String.mk ((splitChar '/' s.toList).getLastD [])

/-- Python `s.startswith(p)`. -/
def strStartsWith (s p : String) : Bool :=
  p.toList.isPrefixOf s.toList

/-- Python `c in s` for a one-character needle. -/
def strContainsChar (s : String) (c : Char) : Bool :=
  s.toList.contains c

/-- Python `re.match(r"^([a-zA-Z]+)", s)`'s group 1: the leading run of
ASCII letters (empty when the match fails). -/
def alphaPrefixOf (s : String) : String :=
  String.mk (s.toList.takeWhile (fun c => c.isAlpha))

/-! ### `build_rsync_cmd` (src/udrive_sync.py lines 184-220)

The source builds `flags` inline and returns
`pre_cmd + [RSYNC_BIN] + flags + [src/, dst/]`; an unrecognized mode
recurses once with `mode="fast"`.  We split the flag list and the
priority prefix into named functions (`rsync_flags`, `pre_cmd`) and
unroll the single-step recursion for the unrecognized-mode branch,
which the source delegates verbatim to `"fast"`. -/

/-- The base safe flags plus progress flag, shared by every mode
(lines 189-192). -/
def baseFlags : List String :=
  ["-a", "-H", "-A", "-X", "--numeric-ids", "--info=progress2"]

/-- The flags built by the `mode == "fast"` branch (lines 201-210). -/
def fastFlags (src_is_ssd dst_is_ssd : Bool) : List String :=
  baseFlags ++ ["--partial", "--inplace"] ++
    (if src_is_ssd && dst_is_ssd then ["--whole-file", "--no-inc-recursive"]
     else ["--no-inc-recursive"])

/-- The rsync flag list of `build_rsync_cmd`.  The final `else` branch
is the source's `return build_rsync_cmd(..., mode="fast")` unrolled. -/
def rsync_flags (src_is_ssd dst_is_ssd : Bool) (mode : String) : List String :=
  if mode = "safe" then
    baseFlags ++ ["--partial", "--inplace"]
  else if mode = "fast" then
    fastFlags src_is_ssd dst_is_ssd
  else if mode = "aggressive" then
    baseFlags ++ ["--partial", "--inplace", "--no-inc-recursive", "--whole-file"]
  else
    fastFlags src_is_ssd dst_is_ssd

/-- The `ionice`/`nice` priority prefix (`pre_cmd` in the source).  The
final `else` branch is again the delegation to `"fast"`. -/
def pre_cmd (mode : String) : List String :=
  if mode = "safe" then []
  else if mode = "fast" then ["ionice", "-c2", "-n0", "nice", "-n", "-5"]
  else if mode = "aggressive" then ["ionice", "-c1", "-n0", "nice", "-n", "-10"]
  else ["ionice", "-c2", "-n0", "nice", "-n", "-5"]

/-- The full command returned by `build_rsync_cmd` (line 219):
priority prefix, the rsync binary, the flags, then the
trailing-slash-normalized source and destination. -/
def build_rsync_cmd (src dst : String) (src_is_ssd dst_is_ssd : Bool)
    (mode : String) : List String :=
  pre_cmd mode ++ ["rsync"] ++ rsync_flags src_is_ssd dst_is_ssd mode ++
    [rstripSlash src ++ "/", rstripSlash dst ++ "/"]

/-! ### Device classification (src/udrive_sync.py lines 110-178)

`_device_for_path` shells out to `df`; `_block_name_from_device` reads
`/sys/class/block`; `is_rotational` reads
`/sys/block/<name>/queue/rotational`.  Those three external queries are
the environment of the classifier. -/

/-- `_block_name_from_device` (lines 123-154).  `sysBlock` is the
result of `os.listdir("/sys/class/block")`: `none` models the listing
raising (the `except: pass` path), `some cs` a successful listing. -/
def _block_name_from_device (device : String) (sysBlock : Option (List String)) :
    Option String :=
  if device = "" then none
  else
    let base := basename device
    if strStartsWith base "nvme" && strContainsChar base 'p' then
      some (String.mk ((splitChar 'p' base.toList).headD []))
    else
      match sysBlock with
      | some candidates =>
        if base ∈ candidates then some base
        else
          let pfx := alphaPrefixOf base
          if pfx ≠ "" ∧ pfx ∈ candidates then some pfx
          else some (rstripDigits base)
      | none => some (rstripDigits base)

/-- Environment of one `is_ssd_for_path` call: what `df` resolved the
path to (`none` models resolution failure), the `/sys/class/block`
listing, and the contents of each `/sys/block/<b>/queue/rotational`
file (`none` models an unreadable flag). -/
structure ClassifyEnv where
  device : Option String
  sysBlock : Option (List String)
  rotationalFlag : String → Option String

/-- `is_rotational` (lines 157-169): `True` iff the flag file reads
`"1"` after stripping; falsy block name or unreadable flag yields
`False` (assume SSD). -/
def is_rotational (block_name : Option String) (env : ClassifyEnv) : Bool :=
  match block_name with
  | none => false
  | some b =>
    if b = "" then false
    else
      match env.rotationalFlag b with
      | some val => val.trim = "1"
      | none => false

/-- `is_ssd_for_path` (lines 172-178).  Note the source returns `False`
(an HDD verdict) when `_device_for_path` yields nothing. -/
def is_ssd_for_path (env : ClassifyEnv) : Bool :=
  match env.device with
  | none => false
  | some d =>
    if d = "" then false
    else !(is_rotational (_block_name_from_device d env.sysBlock) env)

/-- The orchestrator's verdict computation (lines 349-355): the
`try`/`except` around the two `is_ssd_for_path` calls.  `none` models
the `except` path, which assigns `src_ssd = dst_ssd = True`. -/
def orchestratorVerdicts (classify : Option (Bool × Bool)) : Bool × Bool :=
  match classify with
  | some p => p
  | none => (true, true)

/-! ### Size/count auditor fallback (src/udrive_sync.py lines 95-102)

The count fallback is `for _, _, files in os.walk(path): count += len(files)`.
`os.walk` puts an entry into `files` iff `os.path.isdir` on it is false
(so a symlink to a directory lands in `dirs`, a symlink to anything
else lands in `files`), and with the default `followlinks=False` it
does not descend into symlinked directories.  The primary counter is
`find <path> -type f | wc -l`, which counts regular files only and does
not follow symlinks. -/

/-- A filesystem entry as `os.walk` distinguishes them: a regular file,
a real directory with children, a symlink whose target is not a
directory (including broken links), or a symlink to a directory. -/
inductive FsEntry where
  | file (name : String)
  | dir (name : String) (children : List FsEntry)
  | symlinkFile (name : String)
  | symlinkDir (name : String)

mutual
/-- Contribution of one entry to the `os.walk` fallback count
(lines 100-102): a non-directory entry is in `files` and counts 1; a
real directory is recursed into; a symlinked directory is listed in
`dirs` but not descended into and counts 0. -/
def walk_count_entry : FsEntry → Nat
  | FsEntry.file _ => 1
  | FsEntry.dir _ children => walk_fallback_count children
  | FsEntry.symlinkFile _ => 1
  | FsEntry.symlinkDir _ => 0

/-- The count computed by the `os.walk` fallback on a root directory
with the given children. -/
def walk_fallback_count : List FsEntry → Nat
  | [] => 0
  | e :: rest => walk_count_entry e + walk_fallback_count rest
end

mutual
/-- Contribution of one entry to a regular-files-only count (what
`find -type f` reports, and what the claim says the fallback computes):
directories and all symlinks count 0, real directories are recursed
into. -/
def regular_count_entry : FsEntry → Nat
  | FsEntry.file _ => 1
  | FsEntry.dir _ children => regular_file_count children
  | FsEntry.symlinkFile _ => 0
  | FsEntry.symlinkDir _ => 0

/-- The count of regular files under a root with the given children. -/
def regular_file_count : List FsEntry → Nat
  | [] => 0
  | e :: rest => regular_count_entry e + regular_file_count rest
end

mutual
/-- Contribution of one entry to the count of non-directory symlinks
the walk encounters (it does not descend into symlinked directories):
the entries the fallback counts beyond the regular files. -/
def nds_count_entry : FsEntry → Nat
  | FsEntry.file _ => 0
  | FsEntry.dir _ children => nondir_symlink_count children
  | FsEntry.symlinkFile _ => 1
  | FsEntry.symlinkDir _ => 0

/-- The non-directory symlinks reachable under a root with the given
children, not crossing symlinked directories. -/
def nondir_symlink_count : List FsEntry → Nat
  | [] => 0
  | e :: rest => nds_count_entry e + nondir_symlink_count rest
end

/-! ### Round-robin split (src/udrive_sync.py lines 277-279)

```
chunks = [[] for _ in range(workers)]
for idx, entry in enumerate(entries):
    chunks[idx % workers].append(entry)
```
-/

/-- `chunks[i].append(x)`: replace bucket `i` by itself with `x`
appended (out-of-range `i` never occurs in the source, where
`i = idx % workers < len(chunks)`). -/
def appendAt (chunks : List (List α)) (i : Nat) (x : α) : List (List α) :=
  chunks.set i (chunks.getD i [] ++ [x])

/-- The `for idx, entry in enumerate(entries)` loop, with `idx` the
running index. -/
def distribute (workers : Nat) : List α → Nat → List (List α) → List (List α)
  | [], _, chunks => chunks
  | e :: rest, idx, chunks =>
    distribute workers rest (idx + 1) (appendAt chunks (idx % workers) e)

/-- The `chunks` value after the loop: `workers` empty buckets filled
round-robin from index 0. -/
def parallel_chunks (entries : List α) (workers : Nat) : List (List α) :=
  distribute workers entries 0 (List.replicate workers [])

/-! ### `parallel_rsync_split` (src/udrive_sync.py lines 264-315) -/

/-- Python `max(results) if results else 0` over exit codes. -/
def pythonMax : List Int → Int
  | [] => 0
  | x :: xs => xs.foldl max x

/-- `parallel_rsync_split`, abstracting the spawned rsync processes:
`workerRet c` is the exit code of the worker that transfers chunk `c`.
Returns the overall exit code together with the number of workers
launched (the source submits one `run_rsync_stream` per non-empty
chunk, skipping empty ones, and returns `max(results) if results else 0`;
with no top-level entries it returns 0 before launching anything). -/
def parallel_rsync_split (entries : List String) (workers : Nat)
    (workerRet : List String → Int) : Int × Nat :=
  if entries.isEmpty then (0, 0)
  else
    let launched := (parallel_chunks entries workers).filter (fun c => !c.isEmpty)
    (pythonMax (launched.map workerRet), launched.length)

/-! ### Sync orchestrator (src/udrive_sync.py lines 321-389)

The external world of one `sync_directories` run: the four audits
(`get_size_and_count` on source/destination, before and after), the
classification outcome, the source's top-level entries, and the exit
codes of the spawned rsync processes.  The mode string only shapes the
command text (modelled by `build_rsync_cmd`), never the control flow,
so it does not appear here. -/

/-- One `get_size_and_count` result: total bytes and file count. -/
structure Audit where
  size : Nat
  count : Nat
deriving DecidableEq

/-- Environment of one orchestration run. -/
structure SyncEnv where
  /-- `os.path.exists(src)` (line 327). -/
  srcExists : Bool
  /-- Pre-transfer audits of source and destination (lines 335, 339). -/
  preSrc : Audit
  preDst : Audit
  /-- The `try` block of lines 350-352: `some (s, d)` when both
  `is_ssd_for_path` calls return, `none` when one raises. -/
  classify : Option (Bool × Bool)
  /-- Top-level entries of the source, for the parallel path. -/
  entries : List String
  /-- Exit codes: per-chunk parallel workers, the first single run, and
  the retry run. -/
  workerRet : List String → Int
  singleRet1 : Int
  singleRet2 : Int
  /-- Post-transfer audits (lines 377-378). -/
  postSrc : Audit
  postDst : Audit

/-- One transfer strategy invocation, as recorded in the run's trace:
a parallel split (with the number of rsync workers it launched) or a
single rsync run. -/
inductive Attempt where
  | parallelSplit (workersLaunched : Nat)
  | singleRun
deriving DecidableEq

/-- Outcome of `sync_directories`: the `FileNotFoundError` raise
(line 330) or a returned exit code. -/
inductive SyncResult where
  | raised
  | returned (code : Nat)
deriving DecidableEq

/-- The strategy-selection step (lines 361-368): parallel split when
both verdicts are SSD and `parallel_workers > 1`, else one single run.
Returns the attempt's exit code and its trace entry. -/
def firstAttempt (env : SyncEnv) (parallel_workers : Nat) : Int × List Attempt :=
  let v := orchestratorVerdicts env.classify
  if v.1 && v.2 && decide (1 < parallel_workers) then
    let pr := parallel_rsync_split env.entries parallel_workers env.workerRet
    (pr.1, [Attempt.parallelSplit pr.2])
  else
    (env.singleRet1, [Attempt.singleRun])

/-- `sync_directories` (lines 321-389), returning the outcome and the
trace of transfer invocations.  The retry (lines 370-374) is always a
single run; its exit code is not consulted again — the final verdict
(lines 380-389) depends only on the post-audits. -/
def sync_directories (env : SyncEnv) (parallel_workers : Nat) :
    SyncResult × List Attempt :=
  if !env.srcExists then (SyncResult.raised, [])
  else if env.preSrc.size = env.preDst.size ∧ env.preSrc.count = env.preDst.count ∧
          env.preSrc.size ≠ 0 then
    (SyncResult.returned 0, [])
  else
    let fa := firstAttempt env parallel_workers
    let trace := if fa.1 ≠ 0 then fa.2 ++ [Attempt.singleRun] else fa.2
    if env.postSrc.size = env.postDst.size ∧ env.postSrc.count = env.postDst.count ∧
       env.postSrc.size ≠ 0 then
      (SyncResult.returned 0, trace)
    else
      (SyncResult.returned 2, trace)

/-! ### Supporting lemmas and claim theorems -/

theorem length_appendAt (chunks : List (List α)) (i : Nat) (x : α) :
    (appendAt chunks i x).length = chunks.length := by
  simp [appendAt]

theorem length_distribute (workers : Nat) (es : List α) (idx : Nat)
    (chunks : List (List α)) :
    (distribute workers es idx chunks).length = chunks.length := by
  induction es generalizing idx chunks with
  | nil => rfl
  | cons e rest ih => simp [distribute, ih, length_appendAt]

theorem flatten_appendAt (chunks : List (List α)) (i : Nat) (x : α)
    (h : i < chunks.length) :
    (appendAt chunks i x).flatten.Perm (chunks.flatten ++ [x]) := by
  induction chunks generalizing i with
  | nil => simp at h
  | cons c cs ih =>
    cases i with
    | zero =>
      simp only [appendAt, List.getD_cons_zero, List.set_cons_zero, List.flatten_cons,
        List.append_assoc]
      exact (List.Perm.append_left c List.perm_append_comm).trans (by rw [← List.append_assoc])
    | succ j =>
      have hj : j < cs.length := Nat.lt_of_succ_lt_succ h
      simp only [appendAt, List.getD_cons_succ, List.set_cons_succ, List.flatten_cons,
        List.append_assoc]
      have := List.Perm.append_left c (ih j hj)
      simpa [appendAt, List.append_assoc] using this

theorem flatten_distribute (workers : Nat) (hw : 0 < workers) (es : List α)
    (idx : Nat) (chunks : List (List α)) (hlen : chunks.length = workers) :
    (distribute workers es idx chunks).flatten.Perm (chunks.flatten ++ es) := by
  induction es generalizing idx chunks with
  | nil => simp [distribute]
  | cons e rest ih =>
    have hm : idx % workers < chunks.length := by
      rw [hlen]; exact Nat.mod_lt _ hw
    have h2 := ih (idx + 1) (appendAt chunks (idx % workers) e)
      (by rw [length_appendAt, hlen])
    refine (by simpa [distribute] using h2 : (distribute workers (e :: rest) idx chunks).flatten.Perm _).trans ?_
    refine ((flatten_appendAt chunks (idx % workers) e hm).append_right rest).trans ?_
    simp

theorem parallel_chunks_length (entries : List α) (workers : Nat) :
    (parallel_chunks entries workers).length = workers := by
  simp [parallel_chunks, length_distribute]

theorem parallel_chunks_flatten_perm (entries : List α) (workers : Nat)
    (hw : 0 < workers) :
    (parallel_chunks entries workers).flatten.Perm entries := by
  have h := flatten_distribute workers hw entries 0 (List.replicate workers [])
    (by simp)
  simpa using h

theorem getD_appendAt_self (chunks : List (List α)) (i : Nat) (x : α)
    (h : i < chunks.length) :
    (appendAt chunks i x).getD i [] = chunks.getD i [] ++ [x] := by
  simp [appendAt, List.getD_eq_getElem?_getD, List.getElem?_set_self h]

theorem getD_appendAt_ne (chunks : List (List α)) (i j : Nat) (x : α)
    (h : i ≠ j) :
    (appendAt chunks i x).getD j [] = chunks.getD j [] := by
  simp [appendAt, List.getD_eq_getElem?_getD, List.getElem?_set_ne h]

theorem mem_getD_distribute (workers : Nat) (hw : 0 < workers) (es : List α)
    (idx : Nat) (chunks : List (List α)) (hlen : chunks.length = workers)
    (j : Nat) (x : α) (hx : x ∈ chunks.getD j []) :
    x ∈ (distribute workers es idx chunks).getD j [] := by
  induction es generalizing idx chunks with
  | nil => exact hx
  | cons e rest ih =>
    simp only [distribute]
    refine ih (idx + 1) _ (by rw [length_appendAt, hlen]) ?_
    by_cases hij : idx % workers = j
    · subst hij
      rw [getD_appendAt_self _ _ _ (by rw [hlen]; exact Nat.mod_lt _ hw)]
      exact List.mem_append_left _ hx
    · rw [getD_appendAt_ne _ _ _ _ hij]
      exact hx

theorem distribute_assigns (workers : Nat) (hw : 0 < workers) (es : List α)
    (idx : Nat) (chunks : List (List α)) (hlen : chunks.length = workers)
    (i : Nat) (h : i < es.length) :
    es.get ⟨i, h⟩ ∈ (distribute workers es idx chunks).getD ((idx + i) % workers) [] := by
  induction es generalizing idx chunks i with
  | nil => simp at h
  | cons e rest ih =>
    cases i with
    | zero =>
      simp only [List.get_cons_zero, Nat.add_zero, distribute]
      refine mem_getD_distribute workers hw rest (idx + 1) _
        (by rw [length_appendAt, hlen]) _ _ ?_
      rw [getD_appendAt_self _ _ _ (by rw [hlen]; exact Nat.mod_lt _ hw)]
      exact List.mem_append_right _ (List.mem_singleton_self e)
    | succ i' =>
      have hi' : i' < rest.length := Nat.lt_of_succ_lt_succ h
      have hrec := ih (idx + 1) (appendAt chunks (idx % workers) e)
        (by rw [length_appendAt, hlen]) i' hi'
      have harith : idx + 1 + i' = idx + (i' + 1) := by omega
      rw [harith] at hrec
      simpa [distribute] using hrec

theorem le_foldl_max (xs : List Int) (a : Int) : a ≤ xs.foldl max a := by
  induction xs generalizing a with
  | nil => exact le_refl a
  | cons x xs ih => exact le_trans (le_max_left a x) (ih (max a x))

theorem mem_le_foldl_max (xs : List Int) (a x : Int) (hx : x ∈ xs) :
    x ≤ xs.foldl max a := by
  induction xs generalizing a with
  | nil => simp at hx
  | cons y ys ih =>
    rcases List.mem_cons.mp hx with h | h
    · subst h
      exact le_trans (le_max_right a x) (le_foldl_max ys (max a x))
    · exact ih (max a y) h

theorem foldl_max_mem (xs : List Int) (a : Int) :
    xs.foldl max a = a ∨ xs.foldl max a ∈ xs := by
  induction xs generalizing a with
  | nil => exact Or.inl rfl
  | cons y ys ih =>
    rcases ih (max a y) with h | h
    · rcases max_choice a y with hm | hm
      · exact Or.inl (by simp [List.foldl_cons] at h ⊢; rw [h, hm])
      · refine Or.inr (List.mem_cons.mpr (Or.inl ?_))
        simp only [List.foldl_cons] at h ⊢
        rw [h, hm]
    · exact Or.inr (List.mem_cons.mpr (Or.inr (by simpa using h)))

theorem le_pythonMax (l : List Int) (x : Int) (hx : x ∈ l) : x ≤ pythonMax l := by
  cases l with
  | nil => simp at hx
  | cons y ys =>
    rcases List.mem_cons.mp hx with h | h
    · subst h; exact le_foldl_max ys x
    · exact mem_le_foldl_max ys y x h

theorem pythonMax_mem (l : List Int) (h : l ≠ []) : pythonMax l ∈ l := by
  cases l with
  | nil => exact absurd rfl h
  | cons y ys =>
    rcases foldl_max_mem ys y with h1 | h1
    · exact List.mem_cons.mpr (Or.inl (by simpa [pythonMax] using h1))
    · exact List.mem_cons.mpr (Or.inr (by simpa [pythonMax] using h1))

/-- **C5** — For every list of N children (N ≥ 0) and every worker
count W ≥ 1, the round-robin partition assigns the child at index `i`
to bucket `i % W`; the buckets are pairwise disjoint (children of a
directory being pairwise distinct) and their merged contents are a
permutation of the original child list — no duplicates, no omissions. -/
theorem C5_round_robin_partition (entries : List String) (W : Nat) (hW : 1 ≤ W) :
    ((parallel_chunks entries W).length = W) ∧
    (∀ i, (h : i < entries.length) →
        entries.get ⟨i, h⟩ ∈ (parallel_chunks entries W).getD (i % W) []) ∧
    ((parallel_chunks entries W).flatten.Perm entries) ∧
    (entries.Nodup → (parallel_chunks entries W).Pairwise List.Disjoint) := by
  refine ⟨parallel_chunks_length entries W, ?_,
    parallel_chunks_flatten_perm entries W hW, ?_⟩
  · intro i h
    have hmem := distribute_assigns W hW entries 0 (List.replicate W [])
      (by simp) i h
    simpa [parallel_chunks] using hmem
  · intro hnd
    have hperm := parallel_chunks_flatten_perm entries W hW
    have hflat : (parallel_chunks entries W).flatten.Nodup := hperm.symm.nodup hnd
    exact (List.nodup_flatten.mp hflat).2

theorem C5_round_robin_partition_witness :
    (parallel_chunks ["a", "b", "c"] 2).flatten.Perm ["a", "b", "c"] :=
  (C5_round_robin_partition ["a", "b", "c"] 2 (by decide)).2.2.1

/-- **C7** — With no top-level entries the parallel strategy returns
exit code 0 having launched no worker; otherwise it launches exactly
one rsync worker per non-empty bucket and its result is the maximum of
the launched workers' exit codes (it dominates each of them and is one
of them). -/
theorem C7_parallel_split (entries : List String) (workers : Nat)
    (workerRet : List String → Int) (hW : 1 ≤ workers) :
    (entries = [] → parallel_rsync_split entries workers workerRet = (0, 0)) ∧
    (entries ≠ [] →
      ((parallel_rsync_split entries workers workerRet).2 =
        ((parallel_chunks entries workers).filter (fun c => !c.isEmpty)).length) ∧
      (∀ r ∈ ((parallel_chunks entries workers).filter (fun c => !c.isEmpty)).map workerRet,
          r ≤ (parallel_rsync_split entries workers workerRet).1) ∧
      ((parallel_rsync_split entries workers workerRet).1 ∈
        ((parallel_chunks entries workers).filter (fun c => !c.isEmpty)).map workerRet)) := by
  constructor
  · intro he; subst he; rfl
  · intro hne
    have hE : entries.isEmpty = false := by
      simpa [List.isEmpty_iff] using hne
    have hsplit : parallel_rsync_split entries workers workerRet =
        (pythonMax (((parallel_chunks entries workers).filter (fun c => !c.isEmpty)).map workerRet),
         ((parallel_chunks entries workers).filter (fun c => !c.isEmpty)).length) := by
      simp [parallel_rsync_split, hE]
    have hlaunched : ((parallel_chunks entries workers).filter (fun c => !c.isEmpty)) ≠ [] := by
      intro hfil
      have hall : ∀ c ∈ parallel_chunks entries workers, c = [] := by
        intro c hc
        have hc' := List.filter_eq_nil_iff.mp hfil c hc
        simpa [List.isEmpty_iff] using hc'
      have hflat : (parallel_chunks entries workers).flatten = [] :=
        List.flatten_eq_nil_iff.mpr hall
      have hperm := parallel_chunks_flatten_perm entries workers hW
      rw [hflat] at hperm
      exact hne hperm.symm.eq_nil
    refine ⟨by rw [hsplit], ?_, ?_⟩
    · intro r hr
      rw [hsplit]
      exact le_pythonMax _ r hr
    · rw [hsplit]
      exact pythonMax_mem _ (fun h => hlaunched (List.map_eq_nil_iff.mp h))

theorem C7_parallel_split_witness :
    parallel_rsync_split [] 4 (fun _ => 0) = (0, 0) :=
  (C7_parallel_split [] 4 (fun _ => 0) (by decide)).1 rfl

theorem firstAttempt_trace_length (env : SyncEnv) (workers : Nat) :
    (firstAttempt env workers).2.length = 1 := by
  simp only [firstAttempt]
  split <;> rfl

theorem sync_directories_run (env : SyncEnv) (workers : Nat)
    (hex : env.srcExists = true)
    (hpre : ¬(env.preSrc.size = env.preDst.size ∧
              env.preSrc.count = env.preDst.count ∧ env.preSrc.size ≠ 0)) :
    sync_directories env workers =
      ((if env.postSrc.size = env.postDst.size ∧
           env.postSrc.count = env.postDst.count ∧ env.postSrc.size ≠ 0
        then SyncResult.returned 0 else SyncResult.returned 2),
       (if (firstAttempt env workers).1 ≠ 0 then
          (firstAttempt env workers).2 ++ [Attempt.singleRun]
        else (firstAttempt env workers).2)) := by
  unfold sync_directories
  rw [if_neg (by simp [hex]), if_neg hpre]
  split <;> split <;> simp_all

/-- **C1** — When the source exists and the pre-audit reports equal
sizes, equal file counts, and nonzero source size, `sync_directories`
returns 0 with an empty transfer trace: no rsync invocation is
launched. -/
theorem C1_short_circuit (env : SyncEnv) (workers : Nat)
    (hex : env.srcExists = true)
    (hsz : env.preSrc.size = env.preDst.size)
    (hct : env.preSrc.count = env.preDst.count)
    (hnz : env.preSrc.size ≠ 0) :
    sync_directories env workers = (SyncResult.returned 0, []) := by
  unfold sync_directories
  rw [if_neg (by simp [hex]), if_pos ⟨hsz, hct, hnz⟩]

theorem C1_short_circuit_witness :
    sync_directories
      { srcExists := true, preSrc := ⟨500, 10⟩, preDst := ⟨500, 10⟩,
        classify := some (true, true), entries := [], workerRet := fun _ => 0,
        singleRet1 := 0, singleRet2 := 0, postSrc := ⟨500, 10⟩,
        postDst := ⟨500, 10⟩ } 4 = (SyncResult.returned 0, []) :=
  C1_short_circuit _ 4 rfl rfl rfl (by decide)

/-- **C4** — On a run that reaches the transfer step, a nonzero first
attempt (single or parallel) is followed by exactly one further
attempt, always a single run; a zero first attempt is followed by
nothing; the first attempt is one invocation and the whole run never
exceeds two. -/
theorem C4_bounded_single_retry (env : SyncEnv) (workers : Nat)
    (hex : env.srcExists = true)
    (hpre : ¬(env.preSrc.size = env.preDst.size ∧
              env.preSrc.count = env.preDst.count ∧ env.preSrc.size ≠ 0)) :
    ((firstAttempt env workers).1 ≠ 0 →
      (sync_directories env workers).2 =
        (firstAttempt env workers).2 ++ [Attempt.singleRun]) ∧
    ((firstAttempt env workers).1 = 0 →
      (sync_directories env workers).2 = (firstAttempt env workers).2) ∧
    (firstAttempt env workers).2.length = 1 ∧
    (sync_directories env workers).2.length ≤ 2 := by
  rw [sync_directories_run env workers hex hpre]
  dsimp only
  refine ⟨?_, ?_, firstAttempt_trace_length env workers, ?_⟩
  · intro hne; rw [if_pos hne]
  · intro heq; rw [if_neg (fun hne => hne heq)]
  · split <;> simp [firstAttempt_trace_length]

theorem C4_bounded_single_retry_witness :
    (sync_directories
      { srcExists := true, preSrc := ⟨500, 10⟩, preDst := ⟨0, 0⟩,
        classify := some (false, false), entries := [], workerRet := fun _ => 0,
        singleRet1 := 1, singleRet2 := 0, postSrc := ⟨500, 10⟩,
        postDst := ⟨500, 10⟩ } 4).2 =
      (firstAttempt
        { srcExists := true, preSrc := ⟨500, 10⟩, preDst := ⟨0, 0⟩,
          classify := some (false, false), entries := [], workerRet := fun _ => 0,
          singleRet1 := 1, singleRet2 := 0, postSrc := ⟨500, 10⟩,
          postDst := ⟨500, 10⟩ } 4).2 ++ [Attempt.singleRun] :=
  (C4_bounded_single_retry _ 4 rfl (by simp)).1
    (by simp [firstAttempt, orchestratorVerdicts])

/-- **C10** — When the source audits to size zero both before and after
the transfer (for instance an empty source directory), the run never
short-circuits: a transfer is attempted (nonempty trace) and the final
verification fails, returning 2 — even if the destination audit equals
the source audit. -/
theorem C10_zero_source_never_succeeds (env : SyncEnv) (workers : Nat)
    (hex : env.srcExists = true)
    (hpre : env.preSrc.size = 0)
    (hpost : env.postSrc.size = 0) :
    (sync_directories env workers).1 = SyncResult.returned 2 ∧
    (sync_directories env workers).2 ≠ [] := by
  have h1 : ¬(env.preSrc.size = env.preDst.size ∧
      env.preSrc.count = env.preDst.count ∧ env.preSrc.size ≠ 0) := by
    rintro ⟨-, -, h⟩; exact h hpre
  have h2 : ¬(env.postSrc.size = env.postDst.size ∧
      env.postSrc.count = env.postDst.count ∧ env.postSrc.size ≠ 0) := by
    rintro ⟨-, -, h⟩; exact h hpost
  rw [sync_directories_run env workers hex h1]
  dsimp only
  refine ⟨by rw [if_neg h2], ?_⟩
  have hlen := firstAttempt_trace_length env workers
  split
  · simp
  · intro hnil
    rw [hnil] at hlen
    simp at hlen

theorem C10_zero_source_never_succeeds_witness :
    (sync_directories
      { srcExists := true, preSrc := ⟨0, 0⟩, preDst := ⟨0, 0⟩,
        classify := some (true, true), entries := [], workerRet := fun _ => 0,
        singleRet1 := 0, singleRet2 := 0, postSrc := ⟨0, 0⟩,
        postDst := ⟨0, 0⟩ } 4).1 = SyncResult.returned 2 :=
  (C10_zero_source_never_succeeds _ 4 rfl rfl rfl).1

/-- **C2, counterexample** — The claim fails for unrecognized mode
strings: `build_rsync_cmd` delegates them to `"fast"`, so with both
sides solid-state the flag set contains `--whole-file` although the
mode is neither `"aggressive"` nor `"fast"`. -/
theorem C2_counterexample :
    ("--whole-file" ∈ rsync_flags true true "turbo") ∧
    "turbo" ≠ "aggressive" ∧ "turbo" ≠ "fast" := by
  refine ⟨by decide, by decide, by decide⟩

/-- **C2, amended** — The flag set contains `--whole-file` iff the mode
is `"aggressive"`, or the mode behaves as `"fast"` (it is anything
other than `"safe"` and `"aggressive"`, unrecognized modes delegating
to `"fast"`) and both device verdicts are solid-state. -/
theorem C2_whole_file_iff (src_is_ssd dst_is_ssd : Bool) (mode : String) :
    ("--whole-file" ∈ rsync_flags src_is_ssd dst_is_ssd mode) ↔
      (mode = "aggressive" ∨
        (mode ≠ "safe" ∧ mode ≠ "aggressive" ∧
          src_is_ssd = true ∧ dst_is_ssd = true)) := by
  by_cases h1 : mode = "safe"
  · subst h1; simp [rsync_flags, baseFlags]
  · by_cases h2 : mode = "fast"
    · subst h2
      cases src_is_ssd <;> cases dst_is_ssd <;> simp [rsync_flags, fastFlags, baseFlags]
    · by_cases h3 : mode = "aggressive"
      · subst h3; simp [rsync_flags, baseFlags]
      · cases src_is_ssd <;> cases dst_is_ssd <;> simp [rsync_flags, fastFlags, baseFlags, h1, h2, h3]

/-- **C8** — Every mode, whatever the device verdicts, yields a flag
set containing the archive-preserving flags (`-a`, `-H`, `-A`, `-X`,
`--numeric-ids`, `--info=progress2`) and the `--partial`/`--inplace`
pair. -/
theorem C8_base_flags_always (src_is_ssd dst_is_ssd : Bool) (mode : String) :
    "-a" ∈ rsync_flags src_is_ssd dst_is_ssd mode ∧
    "-H" ∈ rsync_flags src_is_ssd dst_is_ssd mode ∧
    "-A" ∈ rsync_flags src_is_ssd dst_is_ssd mode ∧
    "-X" ∈ rsync_flags src_is_ssd dst_is_ssd mode ∧
    "--numeric-ids" ∈ rsync_flags src_is_ssd dst_is_ssd mode ∧
    "--info=progress2" ∈ rsync_flags src_is_ssd dst_is_ssd mode ∧
    "--partial" ∈ rsync_flags src_is_ssd dst_is_ssd mode ∧
    "--inplace" ∈ rsync_flags src_is_ssd dst_is_ssd mode := by
  unfold rsync_flags
  by_cases h1 : mode = "safe"
  · simp [h1, baseFlags]
  · by_cases h2 : mode = "fast"
    · cases src_is_ssd <;> cases dst_is_ssd <;> simp [h1, h2, fastFlags, baseFlags]
    · by_cases h3 : mode = "aggressive"
      · simp [h1, h2, h3, baseFlags]
      · cases src_is_ssd <;> cases dst_is_ssd <;> simp [h1, h2, h3, fastFlags, baseFlags]

/-- **C3, counterexample** — When the mount-source lookup yields
nothing, `is_ssd_for_path` returns `false`, the rotational (HDD)
verdict — not the solid-state verdict the claim requires. -/
theorem C3_counterexample :
    is_ssd_for_path
      { device := none, sysBlock := none, rotationalFlag := fun _ => none } = false := rfl

/-- **C3, amended** — If resolving the backing block device fails, the
classifier returns a rotational (non-solid-state) verdict; if
classification fails at the orchestrator level, both sides are treated
as solid-state. -/
theorem C3_classifier_defaults (env : ClassifyEnv) (hdev : env.device = none) :
    is_ssd_for_path env = false ∧ orchestratorVerdicts none = (true, true) := by
  refine ⟨?_, rfl⟩
  simp [is_ssd_for_path, hdev]

theorem C3_classifier_defaults_witness :
    is_ssd_for_path
      { device := none, sysBlock := some ["sda"],
        rotationalFlag := fun _ => some "0" } = false ∧
    orchestratorVerdicts none = (true, true) :=
  C3_classifier_defaults _ rfl

/-- **C6, counterexample** — `/sys/class/block` lists partitions too
(on a live system `sda1` appears alongside `sda`); when `sda1` itself
is in the candidate list the normalizer returns it unchanged, not
`sda`. -/
theorem C6_counterexample :
    _block_name_from_device "/dev/sda1" (some ["sda", "sda1"]) = some "sda1" ∧
    "sda1" ≠ "sda" := ⟨rfl, by decide⟩

theorem block_name_sda1 (candidates : List String) :
    _block_name_from_device "/dev/sda1" (some candidates) =
      if "sda1" ∈ candidates then some "sda1"
      else if ¬("sda" : String) = "" ∧ "sda" ∈ candidates then some "sda"
      else some "sda" := rfl

/-- **C6, amended** — `nvme0n1p1` normalizes to `nvme0n1` whatever the
live listing; `sda1` normalizes to `sda` provided `sda1` itself is not
in the live block-device list (or the listing fails); and an
already-bare name (no path separator, so its basename is itself, and
not matching the NVMe partition pattern) present in the live list maps
to itself. -/
theorem C6_normalization :
    (∀ sysBlock, _block_name_from_device "/dev/nvme0n1p1" sysBlock = some "nvme0n1") ∧
    (_block_name_from_device "/dev/sda1" none = some "sda") ∧
    (∀ candidates : List String, "sda1" ∉ candidates →
        _block_name_from_device "/dev/sda1" (some candidates) = some "sda") ∧
    (∀ (name : String) (candidates : List String),
        name ≠ "" → basename name = name →
        (strStartsWith name "nvme" && strContainsChar name 'p') = false →
        name ∈ candidates →
        _block_name_from_device name (some candidates) = some name) := by
  refine ⟨fun sysBlock => rfl, rfl, ?_, ?_⟩
  · intro candidates hno
    rw [block_name_sda1 candidates, if_neg hno, ite_self]
  · intro name candidates hne hbase hpat hmem
    simp only [_block_name_from_device, hbase, hpat]
    simp [hne, hmem]

theorem C6_normalization_witness :
    _block_name_from_device "sda" (some ["sda", "sda1"]) = some "sda" :=
  C6_normalization.2.2.2 "sda" ["sda", "sda1"] (by decide) rfl (by decide)
    (by decide)

/-- **C9, counterexample** — A symlink whose target is a regular file
lands in `os.walk`'s non-directory list, so the fallback counts it,
although it is not a regular file: on a directory holding one such
symlink the fallback reports 1 where a regular-files-only count is 0. -/
theorem C9_counterexample :
    walk_fallback_count [FsEntry.symlinkFile "s"] = 1 ∧
    regular_file_count [FsEntry.symlinkFile "s"] = 0 := ⟨rfl, rfl⟩

mutual
theorem walk_entry_split : ∀ e : FsEntry,
    walk_count_entry e = regular_count_entry e + nds_count_entry e
  | FsEntry.file _ => rfl
  | FsEntry.dir _ children => by
    simp only [walk_count_entry, regular_count_entry, nds_count_entry]
    exact walk_list_split children
  | FsEntry.symlinkFile _ => rfl
  | FsEntry.symlinkDir _ => rfl

theorem walk_list_split : ∀ l : List FsEntry,
    walk_fallback_count l = regular_file_count l + nondir_symlink_count l
  | [] => rfl
  | e :: rest => by
    simp only [walk_fallback_count, regular_file_count, nondir_symlink_count,
      walk_entry_split e, walk_list_split rest]
    omega
end

/-- **C9, amended** — The walk fallback counts the regular files plus
the non-directory symlinks it encounters: directories and symlinks to
directories are excluded from the count, but symlinks to
non-directories are included. -/
theorem C9_walk_fallback_counts (children : List FsEntry) :
    walk_fallback_count children =
      regular_file_count children + nondir_symlink_count children :=
  walk_list_split children

end UdriveSync
